import Mathlib

/-!
Verification of the voice-assistant backend (medical-consultation
transcription and action pipeline) against its specification.

Python strings are shallowly embedded as `List Char` (`PyStr`), with the
Python `str` operations used by the code (`lower`, `strip`, `split`,
`join`, `in`, `endswith`) modelled as executable Lean functions.
Python numbers appearing in the NER metric computation are modelled as
exact rationals (`ℚ`); `round(x, 3)` is modelled as rounding to the
nearest multiple of 1/1000.

External collaborators (the hosted LLM, the medicine parser, the
spreadsheet writer, the email sender, the speech model, the NER model,
the filesystem and codec) are modelled as oracle parameters; a fallible
collaborator is a function into `Except` (an `Except.error` models a
raised Python exception, carrying `str(e)`).  Functions that record
which collaborators they invoked return a trace of call events
alongside their result.
-/

/-! ## Python string primitives -/

/-- A Python `str`, embedded as its list of characters. -/
abbrev PyStr := List Char

/-- Python `s.lower()` (ASCII model, via `Char.toLower`). -/
def py_lower (s : PyStr) : PyStr := s.map Char.toLower

/-- Python `s.lstrip()`: drop leading whitespace. -/
def py_lstrip (s : PyStr) : PyStr := s.dropWhile Char.isWhitespace

/-- Python `s.rstrip()`: drop trailing whitespace. -/
def py_rstrip (s : PyStr) : PyStr := (s.reverse.dropWhile Char.isWhitespace).reverse

/-- Python `s.strip()`: drop leading and trailing whitespace. -/
def py_strip (s : PyStr) : PyStr := py_rstrip (py_lstrip s)

/-- Python truthiness of a string: `bool(s)` is `False` iff `s` is empty. -/
def py_falsy (s : PyStr) : Bool := s.isEmpty

/-- Python `sep in s` for strings: substring containment. -/
def py_in (sep : PyStr) : PyStr → Bool
  | [] => sep.isEmpty
  | c :: rest => sep.isPrefixOf (c :: rest) || py_in sep rest

/-- Worker for `py_split`: scan `s` left to right, splitting at each
non-overlapping occurrence of the non-empty separator `sep`, with `acc`
holding the reversed characters of the current field.  `fuel` only
bounds the recursion (each step consumes at least one character, so
`fuel = s.length` suffices); structural recursion on it keeps the
function kernel-reducible. -/
def py_split_go (sep : List Char) : ℕ → List Char → List Char → List (List Char)
  | _, [], acc => [acc.reverse]
  | 0, s, acc => [acc.reverse ++ s]
  | fuel + 1, c :: rest, acc =>
    if sep.isPrefixOf (c :: rest) then
      acc.reverse :: py_split_go sep fuel ((c :: rest).drop sep.length) []
    else
      py_split_go sep fuel rest (c :: acc)

/-- Python `s.split(sep)` for a separator string (Python raises on an
empty separator; the `[]` case is unreachable for the literal separators
used by this code). -/
def py_split (sep s : PyStr) : List PyStr :=
  match sep with
  | [] => [s]
  | _ :: _ => py_split_go sep s.length s []

/-- Worker for `py_split_ws`: `acc` holds the reversed characters of the
word currently being read. -/
def py_words_go : List Char → List Char → List (List Char)
  | [], acc => if acc.isEmpty then [] else [acc.reverse]
  | c :: rest, acc =>
    if c.isWhitespace then
      if acc.isEmpty then py_words_go rest [] else acc.reverse :: py_words_go rest []
    else
      py_words_go rest (c :: acc)

/-- Python `s.split()` with no argument: split on runs of whitespace,
producing no empty fields. -/
def py_split_ws (s : PyStr) : List PyStr := py_words_go s []

/-- Python `sep.join(parts)`. -/
def py_join (sep : PyStr) : List PyStr → PyStr
  | [] => []
  | [x] => x
  | x :: y :: rest => x ++ sep ++ py_join sep (y :: rest)

/-- Python `s.endswith(suffix)`. -/
def py_endswith (suffix s : PyStr) : Bool := suffix.isSuffixOf s

/-! ## `app/pipeline/nlp_utils.py` : NER metrics -/

/-- Python `round(q, 3)` modelled on exact rationals: round to the
nearest multiple of 1/1000. -/
def round3 (q : ℚ) : ℚ := (round (q * 1000) : ℤ) / 1000

/-- The dict returned by `calculate_ner_metrics`. -/
structure NerMetrics where
  TP : ℕ
  FP : ℕ
  FN : ℕ
  Precision : ℚ
  Recall : ℚ
  F1_Score : ℚ
  deriving Repr, DecidableEq

/-- `calculate_ner_metrics(reference_entities, system_entities)` from
`app/pipeline/nlp_utils.py`, over finite sets of entities of any type
with decidable equality (the code uses sets of `(text, label)` pairs). -/
def calculate_ner_metrics {α : Type} [DecidableEq α]
    (reference_entities system_entities : Finset α) : NerMetrics :=
  let TP : ℕ := (reference_entities ∩ system_entities).card
  let FP : ℕ := (system_entities \ reference_entities).card
  let FN : ℕ := (reference_entities \ system_entities).card
  let precision : ℚ := if TP + FP > 0 then (TP : ℚ) / ((TP : ℚ) + (FP : ℚ)) else 0
  let recall' : ℚ := if TP + FN > 0 then (TP : ℚ) / ((TP : ℚ) + (FN : ℚ)) else 0
  let f1 : ℚ := if precision + recall' > 0 then
    (2 * precision * recall') / (precision + recall') else 0
  { TP := TP, FP := FP, FN := FN,
    Precision := round3 precision, Recall := round3 recall', F1_Score := round3 f1 }

/-! ## `app/pipeline/audio_utils.py` : audio normalization and transcription

The filesystem is modelled as the list of existing paths; the pydub
decode/re-encode step is an oracle `convert src dst` that either
succeeds (creating `dst`) or raises. -/

/-- `os.path.basename(p)` (POSIX): the portion of `p` after the last `/`. -/
def py_basename (p : PyStr) : PyStr := (p.reverse.takeWhile (· ≠ '/')).reverse

/-- `os.path.dirname(p)` (POSIX): everything up to the last `/`, with
trailing slashes stripped unless the head is all slashes. -/
def py_dirname (p : PyStr) : PyStr :=
  let head := (p.reverse.dropWhile (· ≠ '/')).reverse
  if head.isEmpty ∨ head.all (· = '/') then head
  else (head.reverse.dropWhile (· = '/')).reverse

/-- Index of the last occurrence of `c` in `p`, if any. -/
def py_rfind (c : Char) (p : PyStr) : Option ℕ :=
  (p.reverse.findIdx? (· = c)).map (fun i => p.length - 1 - i)

/-- `os.path.splitext(p)` (POSIX): split off the extension at the last
dot, unless every character between the last path separator and that
dot is itself a dot (so leading dots of a filename never start an
extension). -/
def py_splitext (p : PyStr) : PyStr × PyStr :=
  match py_rfind '.' p with
  | none => (p, [])
  | some dotIndex =>
    let sepIndex : ℤ := match py_rfind '/' p with | none => -1 | some i => (i : ℤ)
    if (dotIndex : ℤ) > sepIndex then
      let start := (sepIndex + 1).toNat
      if ((p.drop start).take (dotIndex - start)).any (· ≠ '.') then
        (p.take dotIndex, p.drop dotIndex)
      else (p, [])
    else (p, [])

/-- `os.path.join(a, b)` (POSIX) for two components. -/
def py_path_join (a b : PyStr) : PyStr :=
  if b.head? = some '/' then b
  else if a.isEmpty ∨ a.getLast? = some '/' then a ++ b
  else a ++ ['/'] ++ b

/-- The sibling `.wav` path `ensure_wav` targets:
`os.path.join(os.path.dirname(p), f"{os.path.splitext(os.path.basename(p))[0]}.wav")`. -/
def wav_destination (audio_path : PyStr) : PyStr :=
  let temp_dir := py_dirname audio_path
  py_path_join temp_dir ((py_splitext (py_basename audio_path)).1 ++ ".wav".toList)

/-- Result of one `ensure_wav` call: the returned path, the filesystem
afterwards, and whether the decode/re-encode codec was invoked. -/
structure EnsureWavResult where
  path : PyStr
  fs : List PyStr
  codecInvoked : Bool
  deriving Repr, DecidableEq

/-- `ensure_wav(audio_path)` from `app/pipeline/audio_utils.py`.
`fs` is the set of paths that currently exist (`os.path.exists`);
`convert src dst` is the pydub decode/export step (the three
per-extension branches all decode `src` and export to `dst`), which on
success creates `dst` and on failure raises, in which case the original
path is returned unchanged. -/
def ensure_wav (fs : List PyStr) (convert : PyStr → PyStr → Except PyStr Unit)
    (audio_path : PyStr) : EnsureWavResult :=
  if py_endswith ".mp3".toList (py_lower audio_path)
      ∨ py_endswith ".m4a".toList (py_lower audio_path)
      ∨ py_endswith ".flac".toList (py_lower audio_path) then
    let wav_path := wav_destination audio_path
    if wav_path ∈ fs then
      { path := wav_path, fs := fs, codecInvoked := false }
    else
      match convert audio_path wav_path with
      | .ok _ => { path := wav_path, fs := wav_path :: fs, codecInvoked := true }
      | .error _ => { path := audio_path, fs := fs, codecInvoked := true }
  else
    { path := audio_path, fs := fs, codecInvoked := false }

/-- A segment yielded by the speech model: either it has a `text`
attribute, or it is rendered with `str(seg)`. -/
inductive Segment where
  | withText (text : PyStr)
  | plain (rendering : PyStr)
  deriving Repr, DecidableEq

/-- The string a segment contributes before stripping
(`seg.text` when the attribute exists, else `str(seg)`). -/
def segment_str : Segment → PyStr
  | .withText t => t
  | .plain s => s

/-- `transcribe_file(whisper_model, audio_path, beam_size)` from
`app/pipeline/audio_utils.py`.  The model handle is `Option Unit`
(`None`/falsy means not loaded); `model_transcribe` is the
`whisper_model.transcribe` call together with the iteration over its
lazy segments, which either yields the segment list or raises. -/
def transcribe_file (whisper_model : Option Unit)
    (model_transcribe : PyStr → ℕ → Except PyStr (List Segment))
    (audio_path : PyStr) (beam_size : ℕ := 5) : PyStr :=
  match whisper_model with
  | none => []
  | some _ =>
    match model_transcribe audio_path beam_size with
    | .error _ => []
    | .ok segments =>
      let text_parts := segments.map (fun seg => py_strip (segment_str seg))
      let text := py_join [' '] (text_parts.filter (fun p => !p.isEmpty))
      py_join [' '] (py_split_ws text)

/-! ## `app/agent/core.py` : action routers

`AGENT_ANALYSIS_PROMPT.format(plan_section=...)` lives in
`app/agent/config.py` (not part of the sources); it is modelled as an
abstract prompt-formatting function `fmt_prompt`.  `llm.invoke` returns
the response `.content` string or raises; the medicine parser,
spreadsheet writer and email sender are likewise oracles that return or
raise.  Each router also returns the trace of collaborator calls it
made. -/

/-- One collaborator invocation by an action router. -/
inductive AgentCall where
  | llmCall
  | parseMedicines
  | saveToExcel
  | sendEmail
  deriving Repr, DecidableEq

/-- The dict an action router returns.  A field is `none` when the
corresponding key is absent from the Python dict (or, for
`email_content`, holds Python `None`, which only happens on the
no-appointment path with `send_email=True`). -/
structure ActionResult where
  status : PyStr
  result : Option PyStr := none
  email_content : Option PyStr := none
  message : Option PyStr := none
  error : Option PyStr := none
  deriving Repr, DecidableEq

/-- `process_medicines(plan_section)` from `app/agent/core.py`.
`μ` is the structured medicine data produced by
`parse_medicines_from_text`. -/
def process_medicines {μ : Type}
    (fmt_prompt : PyStr → PyStr)
    (llm : PyStr → Except PyStr PyStr)
    (parse_medicines_from_text : PyStr → Except PyStr μ)
    (save_medicine_to_excel : μ → Except PyStr PyStr)
    (plan_section : PyStr) : ActionResult × List AgentCall :=
  let analysis_prompt := fmt_prompt plan_section
  match llm analysis_prompt with
  | .error e => ({ status := "error".toList, error := some e }, [.llmCall])
  | .ok analysis =>
    if py_in "MEDICINES_FOUND:".toList analysis then
      let medicines_section := (py_split "MEDICINES_FOUND:".toList analysis).getD 1 []
      let medicines_text :=
        if py_in "APPOINTMENT_FOUND:".toList medicines_section then
          py_strip ((py_split "APPOINTMENT_FOUND:".toList medicines_section).getD 0 [])
        else py_strip medicines_section
      if py_lower medicines_text ≠ "none".toList ∧ ¬(py_strip medicines_text).isEmpty then
        match parse_medicines_from_text medicines_text with
        | .error e =>
          ({ status := "error".toList, error := some e }, [.llmCall, .parseMedicines])
        | .ok medicines_data =>
          match save_medicine_to_excel medicines_data with
          | .error e =>
            ({ status := "error".toList, error := some e },
             [.llmCall, .parseMedicines, .saveToExcel])
          | .ok excel_result =>
            ({ status := "success".toList, result := some excel_result },
             [.llmCall, .parseMedicines, .saveToExcel])
      else
        ({ status := "success".toList, result := some "No medicines found.".toList },
         [.llmCall])
    else
      ({ status := "success".toList, result := some "No medicines found.".toList },
       [.llmCall])

/-- `generate_appointment_email_content(appointment_text, plan_section)`
from `app/agent/core.py`: the fixed f-string email template. -/
def generate_appointment_email_content (appointment_text plan_section : PyStr) : PyStr :=
  "Subject: Medical Appointment Confirmation\n\nDear Patient,\n\nThis is a confirmation of your upcoming medical appointment based on your recent consultation.\n\nAPPOINTMENT DETAILS:\n".toList
  ++ appointment_text
  ++ "\n\nFULL TREATMENT PLAN:\n".toList
  ++ plan_section
  ++ "\n\nIMPORTANT REMINDERS:\n• Please arrive 15 minutes early for check-in\n• Bring your ID and insurance card\n• Bring a list of current medications\n• If you need to reschedule, please contact us at least 24 hours in advance\n\nIf you have any questions or concerns, please don't hesitate to contact our office.\n\nBest regards,\nMedical Team\n\n---\nThis is an automated message. Please do not reply to this email.\n".toList

/-- The no-appointment fallback dict of `process_appointment`
(`email_content` is the fixed fallback string when `send_email=False`,
Python `None` otherwise). -/
def no_appointment_result (send_email : Bool) : ActionResult :=
  { status := "success".toList,
    result := some "No appointment found.".toList,
    email_content :=
      if ¬send_email then some "No appointment information found in the plan.".toList
      else none }

/-- `process_appointment(plan_section, user_email, send_email)` from
`app/agent/core.py`. -/
def process_appointment
    (fmt_prompt : PyStr → PyStr)
    (llm : PyStr → Except PyStr PyStr)
    (send_email_schedule : PyStr → PyStr → Except PyStr PyStr)
    (plan_section user_email : PyStr) (send_email : Bool := true) :
    ActionResult × List AgentCall :=
  let analysis_prompt := fmt_prompt plan_section
  match llm analysis_prompt with
  | .error e => ({ status := "error".toList, error := some e }, [.llmCall])
  | .ok analysis =>
    if py_in "APPOINTMENT_FOUND:".toList analysis then
      let appointment_text :=
        py_strip ((py_split "APPOINTMENT_FOUND:".toList analysis).getD 1 [])
      if py_lower appointment_text ≠ "none".toList ∧
          ¬(py_strip appointment_text).isEmpty then
        let email_content :=
          generate_appointment_email_content appointment_text plan_section
        if ¬send_email then
          ({ status := "success".toList,
             email_content := some email_content,
             message := some "Email content generated for preview".toList },
           [.llmCall])
        else
          match send_email_schedule appointment_text user_email with
          | .error e =>
            ({ status := "error".toList, error := some e }, [.llmCall, .sendEmail])
          | .ok email_result =>
            ({ status := "success".toList,
               result := some email_result,
               message := some "Appointment email sent successfully".toList },
             [.llmCall, .sendEmail])
      else
        (no_appointment_result send_email, [.llmCall])
    else
      (no_appointment_result send_email, [.llmCall])

/-! ## `backend_api.py` : HTTP endpoints

`processor` collaborators and the upload temp-file save are oracles.
A raised `HTTPException` and the final `except` wrapper are both
modelled through the error side of `Except`; the observable outcome is
either a JSON response with HTTP status 200 or an HTTP error with its
status code and detail. -/

/-- Python truthiness of `audio.filename` (an optional string):
falsy iff `None` or empty. -/
def py_falsy_opt : Option PyStr → Bool
  | none => true
  | some s => s.isEmpty

/-- The `response_data` dict of a successful `/process_audio` call. -/
structure AudioResponseData where
  transcript : PyStr
  soap_sections : PyStr
  audio_file_name : PyStr
  ner_metrics : Option NerMetrics := none
  reference_entities : Option (List (PyStr × PyStr)) := none
  generated_entities : Option (List (PyStr × PyStr)) := none
  ner_metrics_error : Option PyStr := none
  deriving Repr, DecidableEq

/-- Observable outcome of `/process_audio`: a JSON response with a
status code, or an HTTP error (a raised/propagated `HTTPException`). -/
inductive ProcessAudioResult where
  | jsonResponse (code : ℕ) (content : AudioResponseData)
  | httpError (code : ℕ) (detail : PyStr)
  deriving Repr, DecidableEq

/-- `process_audio_api` from `backend_api.py`.  `fname` is
`audio.filename`; `saveUpload` is the temp-file write returning the
saved `filepath`; `ensure_wavP`, `transcribeP`, `query_gemini`,
`extract_entitiesP` are the `processor` methods (`transcribe_file`
returns `""` on failure rather than raising; `query_gemini` and
`extract_entities` may raise); `json_dumps` is `json.dumps` on the
summary string.  An `HTTPException` raised inside the `try` block is
caught by the blanket `except` and re-raised as
`HTTPException(500, "Internal server error: ...")`, so both inner
`raise` sites and collaborator exceptions flow through the error side
of `inner`. -/
def process_audio_api
    (fname : Option PyStr) (section_text : PyStr)
    (saveUpload : Except PyStr PyStr)
    (ensure_wavP : PyStr → PyStr)
    (transcribeP : PyStr → PyStr)
    (query_gemini : PyStr → Except PyStr PyStr)
    (extract_entitiesP : PyStr → Except PyStr (List (PyStr × PyStr)))
    (json_dumps : PyStr → PyStr) : ProcessAudioResult :=
  if py_falsy_opt fname then
    .httpError 400 "No audio file provided.".toList
  else
    let inner : Except PyStr AudioResponseData :=
      match saveUpload with
      | .error e => .error e
      | .ok filepath =>
        let wav_path := ensure_wavP filepath
        let transcript := transcribeP wav_path
        if py_falsy transcript then .error "Failed to transcribe audio.".toList
        else
          match query_gemini transcript with
          | .error e => .error e
          | .ok gemini_summary_raw =>
            if py_falsy gemini_summary_raw then .error "Failed to generate summary.".toList
            else
              let soap_sections := gemini_summary_raw
              let base : AudioResponseData :=
                { transcript := transcript, soap_sections := soap_sections,
                  audio_file_name := fname.getD [] }
              if ¬py_falsy section_text ∧ ¬py_falsy (py_strip section_text) then
                match extract_entitiesP section_text with
                | .error e => .ok { base with ner_metrics_error := some e }
                | .ok refL =>
                  match extract_entitiesP (json_dumps soap_sections) with
                  | .error e => .ok { base with ner_metrics_error := some e }
                  | .ok sysL =>
                    let section_entities := refL.toFinset
                    let summary_entities := sysL.toFinset
                    .ok { base with
                      ner_metrics :=
                        some (calculate_ner_metrics section_entities summary_entities),
                      reference_entities := some refL.dedup,
                      generated_entities := some sysL.dedup }
              else .ok base
    match inner with
    | .ok response_data => .jsonResponse 200 response_data
    | .error e => .httpError 500 ("Internal server error: ".toList ++ e)

/-- One downstream collaborator invocation by `/approve_plan`. -/
inductive EndpointCall where
  | medicinesCall
  | appointmentCall (send_email : Bool)
  deriving Repr, DecidableEq

/-- The JSON body of an `/approve_plan` response (keys absent ↦ `none`). -/
structure ApprovePlanResponse where
  status : Option PyStr := none
  message : Option PyStr := none
  medicine_processing : Option ActionResult := none
  appointment_preview : Option ActionResult := none
  appointment_sending : Option ActionResult := none
  deriving Repr, DecidableEq

/-- Observable outcome of `/approve_plan`: the JSON content, the HTTP
status code, and the trace of downstream collaborator calls. -/
structure ApproveOutcome where
  content : ApprovePlanResponse
  code : ℕ
  calls : List EndpointCall
  deriving Repr, DecidableEq

/-- `approve_plan_api` from `backend_api.py`.  The downstream
collaborators `process_medicines` / `process_appointment` are passed in
as total functions (they never raise, catching every exception
internally), so the endpoint's own `except` path is unreachable and
every reached business outcome is an HTTP 200 JSON response.  The
payload fields are `Option`s (`none` = key absent). -/
def approve_plan_api
    (process_medicinesP : PyStr → ActionResult)
    (process_appointmentP : PyStr → PyStr → Bool → ActionResult)
    (plan_section : Option PyStr) (user_email : Option PyStr)
    (send_email_field : Option Bool) : ApproveOutcome :=
  let user_email := user_email.getD "default_patient@example.com".toList
  let send_email := send_email_field.getD true
  if py_falsy_opt plan_section ∨
      py_lower (py_strip (plan_section.getD [])) = "n/a".toList then
    { content := { status := some "warning".toList,
                   message := some "No valid plan section provided for approval.".toList },
      code := 200, calls := [] }
  else
    let plan := plan_section.getD []
    let medicine_res := process_medicinesP plan
    let appointment_preview_res := process_appointmentP plan user_email false
    let base : ApprovePlanResponse :=
      { medicine_processing := some medicine_res,
        appointment_preview := some appointment_preview_res }
    if appointment_preview_res.status = "success".toList ∧
        appointment_preview_res.email_content.isSome then
      if send_email then
        let appointment_send_res := process_appointmentP plan user_email true
        if appointment_send_res.status = "success".toList then
          { content := { base with
              appointment_sending := some appointment_send_res,
              message := some "Plan approved and actions executed (including appointment email).".toList },
            code := 200,
            calls := [.medicinesCall, .appointmentCall false, .appointmentCall true] }
        else
          { content := { base with
              appointment_sending := some appointment_send_res,
              message := some "Plan approved, but appointment email sending failed.".toList },
            code := 200,
            calls := [.medicinesCall, .appointmentCall false, .appointmentCall true] }
      else
        { content := { base with
            message := some "Plan approved. Email content generated for review; sending not requested.".toList },
          code := 200, calls := [.medicinesCall, .appointmentCall false] }
    else
      { content := { base with
          message := some "Plan approved, but no appointment found or email generation failed.".toList },
        code := 200, calls := [.medicinesCall, .appointmentCall false] }

/-! ## Theorems -/

/-- The metric computation exactly as §4.4 of the spec words it:
TP = |reference ∩ system|, FP = |system − reference|,
FN = |reference − system|, precision = TP/(TP+FP) if the denominator is
positive else 0, recall analogous, F1 = 2·P·R/(P+R) if the denominator
is positive else 0, each rounded to 3 decimal places. -/
def ner_metrics_spec {α : Type} [DecidableEq α]
    (reference system : Finset α) : NerMetrics :=
  let TP : ℕ := (reference ∩ system).card
  let FP : ℕ := (system \ reference).card
  let FN : ℕ := (reference \ system).card
  let P : ℚ := if TP + FP > 0 then (TP : ℚ) / ((TP : ℚ) + (FP : ℚ)) else 0
  let R : ℚ := if TP + FN > 0 then (TP : ℚ) / ((TP : ℚ) + (FN : ℚ)) else 0
  let F : ℚ := if P + R > 0 then (2 * P * R) / (P + R) else 0
  { TP := TP, FP := FP, FN := FN,
    Precision := round3 P, Recall := round3 R, F1_Score := round3 F }

/-- C1.  For every pair of finite entity sets, `calculate_ner_metrics`
returns exactly the set-overlap counts TP/FP/FN and the
precision/recall/F1 values of the specification, each rounded to 3
decimal places. -/
theorem calculate_ner_metrics_eq_spec {α : Type} [DecidableEq α]
    (reference system : Finset α) :
    calculate_ner_metrics reference system = ner_metrics_spec reference system := rfl

/-- Rounding to 3 decimals fixes 1. -/
theorem round3_one : round3 1 = 1 := by
  norm_num [round3]

/-- Rounding to 3 decimals preserves nonnegativity. -/
theorem round3_nonneg {q : ℚ} (h : 0 ≤ q) : 0 ≤ round3 q := by
  have h0 : (0 : ℤ) ≤ round (q * 1000) := by
    rw [round_eq]
    have h1 : (0 : ℤ) = ⌊(1 : ℚ) / 2⌋ := by norm_num
    rw [h1]
    exact Int.floor_le_floor (by linarith)
  unfold round3
  positivity

/-- Rounding to 3 decimals preserves being at most 1. -/
theorem round3_le_one {q : ℚ} (h : q ≤ 1) : round3 q ≤ 1 := by
  have h0 : round (q * 1000) ≤ 1000 := by
    rw [round_eq]
    have h1 : ⌊(1000 : ℚ) + 1 / 2⌋ = 1000 := by
      rw [Int.floor_eq_iff]
      norm_num
    calc ⌊q * 1000 + 1 / 2⌋ ≤ ⌊(1000 : ℚ) + 1 / 2⌋ :=
          Int.floor_le_floor (by linarith)
      _ = 1000 := h1
  unfold round3
  rw [div_le_one (by norm_num)]
  exact_mod_cast h0

/-- A guarded quotient `TP/(TP+X)` of counts lies in `[0, 1]`. -/
theorem unit_interval_div {TP FPc : ℕ} :
    (0 : ℚ) ≤ (if TP + FPc > 0 then (TP : ℚ) / ((TP : ℚ) + (FPc : ℚ)) else 0) ∧
      (if TP + FPc > 0 then (TP : ℚ) / ((TP : ℚ) + (FPc : ℚ)) else 0) ≤ 1 := by
  split
  · rename_i hpos
    have hpos' : (0 : ℚ) < (TP : ℚ) + (FPc : ℚ) := by exact_mod_cast hpos
    constructor
    · positivity
    · rw [div_le_one hpos']
      have h0 : (0 : ℚ) ≤ (FPc : ℚ) := by positivity
      linarith
  · norm_num

/-- The guarded harmonic-mean combination of two values in `[0, 1]`
lies in `[0, 1]`. -/
theorem f1_unit {P R : ℚ} (hP0 : 0 ≤ P) (hP1 : P ≤ 1) (hR0 : 0 ≤ R) (hR1 : R ≤ 1) :
    (0 : ℚ) ≤ (if P + R > 0 then (2 * P * R) / (P + R) else 0) ∧
      (if P + R > 0 then (2 * P * R) / (P + R) else 0) ≤ 1 := by
  split
  · rename_i hpos
    constructor
    · positivity
    · rw [div_le_one hpos]
      have h1 : P * R ≤ P := mul_le_of_le_one_right hP0 hR1
      have h2 : P * R ≤ R := mul_le_of_le_one_left hR0 hP1
      linarith
  · norm_num

/-- C2.  For every non-empty finite entity set `S`,
`calculate_ner_metrics S S` returns precision = recall = F1 = 1. -/
theorem calculate_ner_metrics_identical_sets {α : Type} [DecidableEq α]
    (S : Finset α) (h : S.Nonempty) :
    (calculate_ner_metrics S S).Precision = 1 ∧
      (calculate_ner_metrics S S).Recall = 1 ∧
      (calculate_ner_metrics S S).F1_Score = 1 := by
  have hcard : 0 < S.card := Finset.card_pos.mpr h
  have hne : ((S.card : ℚ)) ≠ 0 := by exact_mod_cast hcard.ne'
  simp only [calculate_ner_metrics, Finset.inter_self, Finset.sdiff_self,
    Finset.card_empty, Nat.add_zero, Nat.cast_zero, add_zero]
  rw [if_pos hcard]
  rw [div_self hne]
  norm_num [round3_one]

/-- Witness for C2 at the concrete non-empty set `{0}`. -/
theorem calculate_ner_metrics_identical_sets_witness :
    ({0} : Finset ℕ).Nonempty ∧
      ((calculate_ner_metrics ({0} : Finset ℕ) {0}).Precision = 1 ∧
        (calculate_ner_metrics ({0} : Finset ℕ) {0}).Recall = 1 ∧
        (calculate_ner_metrics ({0} : Finset ℕ) {0}).F1_Score = 1) :=
  ⟨by decide, calculate_ner_metrics_identical_sets ({0} : Finset ℕ) (by decide)⟩

/-- C10.  For every pair of finite entity sets, the result of
`calculate_ner_metrics` satisfies TP + FP = |system| and
TP + FN = |reference|, and precision, recall and F1 each lie in
`[0, 1]`. -/
theorem calculate_ner_metrics_invariants {α : Type} [DecidableEq α]
    (reference system : Finset α) :
    (calculate_ner_metrics reference system).TP
        + (calculate_ner_metrics reference system).FP = system.card ∧
      (calculate_ner_metrics reference system).TP
        + (calculate_ner_metrics reference system).FN = reference.card ∧
      0 ≤ (calculate_ner_metrics reference system).Precision ∧
      (calculate_ner_metrics reference system).Precision ≤ 1 ∧
      0 ≤ (calculate_ner_metrics reference system).Recall ∧
      (calculate_ner_metrics reference system).Recall ≤ 1 ∧
      0 ≤ (calculate_ner_metrics reference system).F1_Score ∧
      (calculate_ner_metrics reference system).F1_Score ≤ 1 := by
  simp only [calculate_ner_metrics]
  refine ⟨?_, ?_, ?_, ?_, ?_, ?_, ?_, ?_⟩
  · rw [Finset.inter_comm]
    exact Finset.card_inter_add_card_sdiff system reference
  · exact Finset.card_inter_add_card_sdiff reference system
  · exact round3_nonneg (unit_interval_div).1
  · exact round3_le_one (unit_interval_div).2
  · exact round3_nonneg (unit_interval_div).1
  · exact round3_le_one (unit_interval_div).2
  · exact round3_nonneg (f1_unit (unit_interval_div).1 (unit_interval_div).2
      (unit_interval_div).1 (unit_interval_div).2).1
  · exact round3_le_one (f1_unit (unit_interval_div).1 (unit_interval_div).2
      (unit_interval_div).1 (unit_interval_div).2).2

/-- The medicines payload of an LLM analysis response: the text after
the `MEDICINES_FOUND:` marker, up to the next `APPOINTMENT_FOUND:`
marker or the end of the response, trimmed. -/
def medicines_payload (analysis : PyStr) : PyStr :=
  let medicines_section := (py_split "MEDICINES_FOUND:".toList analysis).getD 1 []
  if py_in "APPOINTMENT_FOUND:".toList medicines_section then
    py_strip ((py_split "APPOINTMENT_FOUND:".toList medicines_section).getD 0 [])
  else py_strip medicines_section

/-- C3.  Whenever the LLM analysis response contains the
`MEDICINES_FOUND:` marker with an empty or (case-insensitively)
`"none"` payload, `process_medicines` returns
`{status: "success", result: "No medicines found."}` and invokes
neither the medicine parser nor the spreadsheet writer (its call trace
is the LLM call alone). -/
theorem process_medicines_no_medicines {μ : Type}
    (fmt_prompt : PyStr → PyStr) (llm : PyStr → Except PyStr PyStr)
    (parse_fn : PyStr → Except PyStr μ) (save_fn : μ → Except PyStr PyStr)
    (plan_section analysis : PyStr)
    (hllm : llm (fmt_prompt plan_section) = .ok analysis)
    (hmark : py_in "MEDICINES_FOUND:".toList analysis = true)
    (hpayload : medicines_payload analysis = [] ∨
      py_lower (medicines_payload analysis) = "none".toList) :
    process_medicines fmt_prompt llm parse_fn save_fn plan_section =
      ({ status := "success".toList, result := some "No medicines found.".toList },
        [AgentCall.llmCall]) := by
  unfold process_medicines
  simp only [hllm, hmark, if_true]
  rw [if_neg]
  rcases hpayload with hemp | hnone
  · intro hcond
    apply hcond.2
    simp only [medicines_payload] at hemp
    rw [hemp]
    rfl
  · intro hcond
    apply hcond.1
    simpa only [medicines_payload] using hnone

/-- Witness for C3: an analysis response of `"MEDICINES_FOUND: none"`. -/
theorem process_medicines_no_medicines_witness :
    ((fun _ : PyStr => (Except.ok "MEDICINES_FOUND: none".toList : Except PyStr PyStr))
        (id ([] : PyStr)) = Except.ok "MEDICINES_FOUND: none".toList) ∧
      py_in "MEDICINES_FOUND:".toList "MEDICINES_FOUND: none".toList = true ∧
      (medicines_payload "MEDICINES_FOUND: none".toList = [] ∨
        py_lower (medicines_payload "MEDICINES_FOUND: none".toList) = "none".toList) ∧
      process_medicines (μ := Unit) id
          (fun _ => .ok "MEDICINES_FOUND: none".toList) (fun _ => .ok ())
          (fun _ => .ok []) [] =
        ({ status := "success".toList, result := some "No medicines found.".toList },
          [AgentCall.llmCall]) :=
  ⟨rfl, by decide, by decide,
    process_medicines_no_medicines (μ := Unit) id
      (fun _ => .ok "MEDICINES_FOUND: none".toList) (fun _ => .ok ()) (fun _ => .ok [])
      [] "MEDICINES_FOUND: none".toList rfl (by decide) (by decide)⟩

/-- C4.  Whenever the LLM analysis response contains no
`APPOINTMENT_FOUND:` marker, `process_appointment` returns status
`"success"` with result `"No appointment found."`; with
`send_email=False` its `email_content` field is the fixed fallback
string, otherwise Python `None`; and in either case the email sender is
never invoked (the call trace is the LLM call alone). -/
theorem process_appointment_no_marker
    (fmt_prompt : PyStr → PyStr) (llm : PyStr → Except PyStr PyStr)
    (send_fn : PyStr → PyStr → Except PyStr PyStr)
    (plan_section user_email analysis : PyStr) (send_email : Bool)
    (hllm : llm (fmt_prompt plan_section) = .ok analysis)
    (hmark : py_in "APPOINTMENT_FOUND:".toList analysis = false) :
    process_appointment fmt_prompt llm send_fn plan_section user_email send_email =
      ({ status := "success".toList,
         result := some "No appointment found.".toList,
         email_content :=
           if ¬send_email then some "No appointment information found in the plan.".toList
           else none },
        [AgentCall.llmCall]) := by
  unfold process_appointment no_appointment_result
  simp only [hllm, hmark, Bool.false_eq_true, if_false]

/-- Witness for C4: a marker-free analysis response, in preview mode. -/
theorem process_appointment_no_marker_witness :
    ((fun _ : PyStr => (Except.ok "no markers here".toList : Except PyStr PyStr))
        (id ([] : PyStr)) = Except.ok "no markers here".toList) ∧
      py_in "APPOINTMENT_FOUND:".toList "no markers here".toList = false ∧
      process_appointment id (fun _ => .ok "no markers here".toList)
          (fun _ _ => .ok []) [] [] false =
        ({ status := "success".toList,
           result := some "No appointment found.".toList,
           email_content := some "No appointment information found in the plan.".toList },
          [AgentCall.llmCall]) :=
  ⟨rfl, by decide, by
    have h := process_appointment_no_marker id
      (fun _ => .ok "no markers here".toList) (fun _ _ => .ok []) [] []
      "no markers here".toList false rfl (by decide)
    simpa using h⟩

/-- C9.  The two action routers are total: whatever the LLM, parser,
writer or email sender return or raise, each returns a dict whose
`status` is exactly `"success"` or `"error"`, and when it is `"error"`
the dict carries an `error` message; no exception escapes (the
embeddings are total functions). -/
theorem agent_routers_total {μ : Type} (fmt_prompt : PyStr → PyStr)
    (llm : PyStr → Except PyStr PyStr)
    (parse_fn : PyStr → Except PyStr μ) (save_fn : μ → Except PyStr PyStr)
    (send_fn : PyStr → PyStr → Except PyStr PyStr)
    (plan_section user_email : PyStr) (send_email : Bool) :
    (((process_medicines fmt_prompt llm parse_fn save_fn plan_section).1.status
          = "success".toList ∨
        (process_medicines fmt_prompt llm parse_fn save_fn plan_section).1.status
          = "error".toList) ∧
      ((process_medicines fmt_prompt llm parse_fn save_fn plan_section).1.status
          = "error".toList →
        (process_medicines fmt_prompt llm parse_fn save_fn plan_section).1.error.isSome
          = true)) ∧
    (((process_appointment fmt_prompt llm send_fn plan_section user_email send_email).1.status
          = "success".toList ∨
        (process_appointment fmt_prompt llm send_fn plan_section user_email send_email).1.status
          = "error".toList) ∧
      ((process_appointment fmt_prompt llm send_fn plan_section user_email send_email).1.status
          = "error".toList →
        (process_appointment fmt_prompt llm send_fn plan_section user_email send_email).1.error.isSome
          = true)) := by
  have hne : "success".toList ≠ "error".toList := by decide
  constructor
  · unfold process_medicines
    cases hl : llm (fmt_prompt plan_section) with
    | error e => simp [hl]
    | ok analysis =>
      simp only [hl]
      repeat' split
      all_goals simp [hne]
  · unfold process_appointment no_appointment_result
    cases hl : llm (fmt_prompt plan_section) with
    | error e => simp [hl]
    | ok analysis =>
      simp only [hl]
      repeat' split
      all_goals simp [hne]

/-- Witness for C9: with an LLM that raises, both routers report
status `"error"` and carry an error message. -/
theorem agent_routers_total_witness :
    (process_medicines (μ := Unit) id (fun _ => .error "boom".toList)
        (fun _ => .ok ()) (fun _ => .ok []) []).1.status = "error".toList ∧
      (process_medicines (μ := Unit) id (fun _ => .error "boom".toList)
        (fun _ => .ok ()) (fun _ => .ok []) []).1.error.isSome = true ∧
      (process_appointment id (fun _ => .error "boom".toList)
        (fun _ _ => .ok []) [] [] true).1.status = "error".toList ∧
      (process_appointment id (fun _ => .error "boom".toList)
        (fun _ _ => .ok []) [] [] true).1.error.isSome = true :=
  ⟨by decide,
    (agent_routers_total (μ := Unit) id (fun _ => .error "boom".toList)
      (fun _ => .ok ()) (fun _ => .ok []) (fun _ _ => .ok []) [] [] true).1.2 (by decide),
    by decide,
    (agent_routers_total (μ := Unit) id (fun _ => .error "boom".toList)
      (fun _ => .ok ()) (fun _ => .ok []) (fun _ _ => .ok []) [] [] true).2.2 (by decide)⟩

/-- C5.  Audio normalization is idempotent with respect to the
filesystem state it produces: for an input path with a non-canonical
extension, after a successful first call (the destination already
exists or the conversion succeeds) a second `ensure_wav` on the same
path returns the same sibling `.wav` path, leaves the filesystem
unchanged, and does not re-invoke the codec — the destination-path
existence check short-circuits. -/
theorem ensure_wav_idempotent
    (fs : List PyStr) (convert : PyStr → PyStr → Except PyStr Unit)
    (audio_path : PyStr)
    (hext : py_endswith ".mp3".toList (py_lower audio_path) = true ∨
      py_endswith ".m4a".toList (py_lower audio_path) = true ∨
      py_endswith ".flac".toList (py_lower audio_path) = true)
    (hfirst : wav_destination audio_path ∈ fs ∨
      convert audio_path (wav_destination audio_path) = .ok ()) :
    (ensure_wav fs convert audio_path).path = wav_destination audio_path ∧
      ensure_wav (ensure_wav fs convert audio_path).fs convert audio_path =
        { path := (ensure_wav fs convert audio_path).path,
          fs := (ensure_wav fs convert audio_path).fs,
          codecInvoked := false } := by
  by_cases hmem : wav_destination audio_path ∈ fs
  · have h1 : ensure_wav fs convert audio_path =
        { path := wav_destination audio_path, fs := fs, codecInvoked := false } := by
      simp only [ensure_wav]
      rw [if_pos hext, if_pos hmem]
    rw [h1]
    refine ⟨rfl, ?_⟩
    simp only [ensure_wav]
    rw [if_pos hext, if_pos hmem]
  · rcases hfirst with hmem' | hconv
    · exact absurd hmem' hmem
    · have h1 : ensure_wav fs convert audio_path =
          { path := wav_destination audio_path,
            fs := wav_destination audio_path :: fs, codecInvoked := true } := by
        simp only [ensure_wav]
        rw [if_pos hext, if_neg hmem, hconv]
      rw [h1]
      refine ⟨rfl, ?_⟩
      simp only [ensure_wav]
      rw [if_pos hext, if_pos (List.mem_cons_self _ _)]

/-- Witness for C5: `/tmp/a.mp3` on an empty filesystem with a
succeeding codec. -/
theorem ensure_wav_idempotent_witness :
    (py_endswith ".mp3".toList (py_lower "/tmp/a.mp3".toList) = true ∨
      py_endswith ".m4a".toList (py_lower "/tmp/a.mp3".toList) = true ∨
      py_endswith ".flac".toList (py_lower "/tmp/a.mp3".toList) = true) ∧
    (wav_destination "/tmp/a.mp3".toList ∈ ([] : List PyStr) ∨
      (fun _ _ => (Except.ok () : Except PyStr Unit)) "/tmp/a.mp3".toList
        (wav_destination "/tmp/a.mp3".toList) = .ok ()) ∧
    ((ensure_wav [] (fun _ _ => .ok ()) "/tmp/a.mp3".toList).path
        = wav_destination "/tmp/a.mp3".toList ∧
      ensure_wav (ensure_wav [] (fun _ _ => .ok ()) "/tmp/a.mp3".toList).fs
          (fun _ _ => .ok ()) "/tmp/a.mp3".toList =
        { path := (ensure_wav [] (fun _ _ => .ok ()) "/tmp/a.mp3".toList).path,
          fs := (ensure_wav [] (fun _ _ => .ok ()) "/tmp/a.mp3".toList).fs,
          codecInvoked := false }) :=
  ⟨by decide, Or.inr rfl,
    ensure_wav_idempotent [] (fun _ _ => .ok ()) "/tmp/a.mp3".toList
      (by decide) (Or.inr rfl)⟩

/-- `py_words_go` on an all-whitespace input just flushes the pending
word. -/
theorem words_go_all_ws {u : List Char} (hu : ∀ c ∈ u, c.isWhitespace) :
    ∀ acc : List Char, py_words_go u acc = if acc.isEmpty then [] else [acc.reverse] := by
  induction u with
  | nil => intro acc; rfl
  | cons c u ih =>
    intro acc
    have hc : c.isWhitespace := hu c (List.mem_cons_self c u)
    have hu' : ∀ x ∈ u, x.isWhitespace := fun x hx => hu x (List.mem_cons_of_mem c hx)
    by_cases ha : acc.isEmpty
    · simp [py_words_go, hc, ha, ih hu']
    · simp [py_words_go, hc, ha, ih hu']

/-- Splitting distributes over a whitespace character: the words of
`xs ++ c :: ys` are the words of `xs` followed by the words of `ys`. -/
theorem words_go_append_ws {c : Char} (hc : c.isWhitespace) (ys : List Char) :
    ∀ (xs acc : List Char),
      py_words_go (xs ++ c :: ys) acc = py_words_go xs acc ++ py_words_go ys [] := by
  intro xs
  induction xs with
  | nil =>
    intro acc
    by_cases ha : acc.isEmpty
    · simp [py_words_go, hc, ha]
    · simp [py_words_go, hc, ha]
  | cons x xs ih =>
    intro acc
    by_cases hx : x.isWhitespace
    · by_cases ha : acc.isEmpty
      · simp [py_words_go, hx, ha, ih]
      · simp [py_words_go, hx, ha, ih]
    · simp [py_words_go, hx, ih]

/-- The whitespace-words of a single-space join are the concatenation of
the whitespace-words of the parts. -/
theorem words_join (parts : List PyStr) :
    py_split_ws (py_join [' '] parts) = parts.flatMap py_split_ws := by
  induction parts with
  | nil => rfl
  | cons x parts ih =>
    cases parts with
    | nil => simp [py_join, List.flatMap]
    | cons y rest =>
      have hsp : (' ' : Char).isWhitespace := by decide
      show py_split_ws (x ++ [' '] ++ py_join [' '] (y :: rest)) = _
      rw [List.append_assoc, List.singleton_append]
      unfold py_split_ws
      rw [words_go_append_ws hsp _ x []]
      rw [show py_words_go (py_join [' '] (y :: rest)) []
        = py_split_ws (py_join [' '] (y :: rest)) from rfl]
      rw [ih]
      simp only [List.flatMap_cons, py_split_ws]
      rfl

/-- Dropping empty parts does not change the concatenated words. -/
theorem flatMap_words_filter (l : List PyStr) :
    (l.filter (fun p => !p.isEmpty)).flatMap py_split_ws = l.flatMap py_split_ws := by
  induction l with
  | nil => rfl
  | cons x l ih =>
    by_cases hx : x.isEmpty
    · have hx' : x = [] := List.isEmpty_iff.mp hx
      subst hx'
      simpa [List.filter_cons] using ih
    · simp [List.filter_cons, hx, ih]

/-- `py_words_go` on a whitespace-free input yields the single pending
word. -/
theorem words_go_no_ws {w : List Char} (hw : ∀ c ∈ w, ¬c.isWhitespace) :
    ∀ acc : List Char, py_words_go w acc =
      if (acc.reverse ++ w).isEmpty then [] else [acc.reverse ++ w] := by
  induction w with
  | nil => intro acc; simp [py_words_go]
  | cons c w ih =>
    intro acc
    have hc : ¬c.isWhitespace := hw c (List.mem_cons_self c w)
    have hw' : ∀ x ∈ w, ¬x.isWhitespace := fun x hx => hw x (List.mem_cons_of_mem c hx)
    simp only [py_words_go, hc, if_false, Bool.false_eq_true]
    rw [ih hw' (c :: acc)]
    simp

/-- Every word produced by `py_words_go` is non-empty and
whitespace-free, provided the pending accumulator is. -/
theorem words_go_mem_good {s : List Char} :
    ∀ acc : List Char, (∀ c ∈ acc, ¬c.isWhitespace) →
      ∀ w ∈ py_words_go s acc, w ≠ [] ∧ ∀ c ∈ w, ¬c.isWhitespace := by
  induction s with
  | nil =>
    intro acc hacc w hw
    by_cases ha : acc.isEmpty
    · simp [py_words_go, ha] at hw
    · simp only [py_words_go, ha, if_false, Bool.false_eq_true, List.mem_singleton] at hw
      subst hw
      refine ⟨fun h => ha ?_, fun c hc => hacc c (List.mem_reverse.mp hc)⟩
      rw [List.isEmpty_iff]
      rw [← List.reverse_reverse acc, h]
      rfl
  | cons c s ih =>
    intro acc hacc w hw
    by_cases hc : c.isWhitespace
    · by_cases ha : acc.isEmpty
      · simp only [py_words_go, hc, if_true, ha] at hw
        exact ih [] (by simp) w hw
      · simp only [py_words_go, hc, if_true, ha, if_false, Bool.false_eq_true,
          List.mem_cons] at hw
        rcases hw with hw | hw
        · subst hw
          refine ⟨fun h => ha ?_, fun x hx => hacc x (List.mem_reverse.mp hx)⟩
          rw [List.isEmpty_iff]
          rw [← List.reverse_reverse acc, h]
          rfl
        · exact ih [] (by simp) w hw
    · simp only [py_words_go, hc, if_false, Bool.false_eq_true] at hw
      refine ih (c :: acc) ?_ w hw
      intro x hx
      rcases List.mem_cons.mp hx with h | h
      · subst h; exact hc
      · exact hacc x h

/-- Stripping leading whitespace does not change the words. -/
theorem words_lstrip (s : PyStr) : py_split_ws (py_lstrip s) = py_split_ws s := by
  induction s with
  | nil => rfl
  | cons c s ih =>
    by_cases hc : c.isWhitespace
    · rw [show py_lstrip (c :: s) = py_lstrip s by
        simp [py_lstrip, List.dropWhile_cons, hc]]
      rw [ih]
      simp [py_split_ws, py_words_go, hc]
    · rw [show py_lstrip (c :: s) = c :: s by
        simp [py_lstrip, List.dropWhile_cons, hc]]

/-- A trailing all-whitespace suffix does not change the words. -/
theorem words_go_append_all_ws {u : List Char} (hu : ∀ c ∈ u, c.isWhitespace) :
    ∀ (t acc : List Char), py_words_go (t ++ u) acc = py_words_go t acc := by
  intro t
  induction t with
  | nil =>
    intro acc
    rw [List.nil_append, words_go_all_ws hu acc]
    rfl
  | cons x t ih =>
    intro acc
    by_cases hx : x.isWhitespace
    · by_cases ha : acc.isEmpty
      · simp [py_words_go, hx, ha, ih]
      · simp [py_words_go, hx, ha, ih]
    · simp [py_words_go, hx, ih]

/-- Stripping trailing whitespace does not change the words. -/
theorem words_rstrip (s : PyStr) : py_split_ws (py_rstrip s) = py_split_ws s := by
  have hdecomp : s = py_rstrip s ++ (s.reverse.takeWhile Char.isWhitespace).reverse := by
    unfold py_rstrip
    rw [← List.reverse_append, List.takeWhile_append_dropWhile, List.reverse_reverse]
  have hws : ∀ c ∈ (s.reverse.takeWhile Char.isWhitespace).reverse, c.isWhitespace :=
    fun c hc => List.mem_takeWhile_imp (List.mem_reverse.mp hc)
  conv_rhs => rw [hdecomp]
  unfold py_split_ws
  rw [words_go_append_all_ws hws]

/-- Stripping does not change the words. -/
theorem words_strip (s : PyStr) : py_split_ws (py_strip s) = py_split_ws s := by
  unfold py_strip
  rw [words_rstrip, words_lstrip]

/-- A non-empty whitespace-free string is its own single word. -/
theorem words_of_good {w : PyStr} (hne : w ≠ []) (hw : ∀ c ∈ w, ¬c.isWhitespace) :
    py_split_ws w = [w] := by
  unfold py_split_ws
  rw [words_go_no_ws hw []]
  simp [hne]

/-- Splitting a list of non-empty whitespace-free words is a no-op. -/
theorem flatMap_words_self {M : List PyStr}
    (hM : ∀ w ∈ M, w ≠ [] ∧ ∀ c ∈ w, ¬c.isWhitespace) :
    M.flatMap py_split_ws = M := by
  induction M with
  | nil => rfl
  | cons w M ih =>
    have hw := hM w (List.mem_cons_self w M)
    rw [List.flatMap_cons, words_of_good hw.1 hw.2,
      ih (fun x hx => hM x (List.mem_cons_of_mem w hx))]
    rfl

/-- Every word of `py_split_ws` is non-empty and whitespace-free. -/
theorem words_mem_good {s w : PyStr} (hw : w ∈ py_split_ws s) :
    w ≠ [] ∧ ∀ c ∈ w, ¬c.isWhitespace :=
  words_go_mem_good [] (by simp) w hw

/-- Re-splitting a single-space join of words is a no-op. -/
theorem words_join_flatMap_idem (L : List PyStr) :
    py_split_ws (py_join [' '] (L.flatMap py_split_ws)) = L.flatMap py_split_ws := by
  rw [words_join]
  refine flatMap_words_self ?_
  intro w hw
  rcases List.mem_flatMap.mp hw with ⟨s, _, hws⟩
  exact words_mem_good hws

/-- `lstrip` fixes a string with a non-whitespace head. -/
theorem lstrip_cons_of_not_ws {c : Char} {l : PyStr} (hc : ¬c.isWhitespace) :
    py_lstrip (c :: l) = c :: l := by
  simp [py_lstrip, List.dropWhile_cons, hc]

/-- `rstrip` fixes a non-empty whitespace-free string. -/
theorem rstrip_good_word {w : PyStr} (hne : w ≠ []) (hw : ∀ c ∈ w, ¬c.isWhitespace) :
    py_rstrip w = w := by
  unfold py_rstrip
  cases hrev : w.reverse with
  | nil => exact absurd (by simpa using congrArg List.reverse hrev) hne
  | cons c cs =>
    have hc : ¬c.isWhitespace := hw c (by
      rw [← List.mem_reverse, hrev]; exact List.mem_cons_self c cs)
    have hdw : List.dropWhile Char.isWhitespace (c :: cs) = c :: cs := by
      simp [List.dropWhile_cons, hc]
    rw [hdw, ← hrev, List.reverse_reverse]

/-- `rstrip` acts only on the right component of an append whose right
component it fixes. -/
theorem rstrip_append_of_fixed {a b : PyStr} (hb : py_rstrip b = b) (hbne : b ≠ []) :
    py_rstrip (a ++ b) = a ++ b := by
  have hb' : b.reverse.dropWhile Char.isWhitespace = b.reverse := by
    have h := congrArg List.reverse hb
    rwa [py_rstrip, List.reverse_reverse] at h
  have hbe : b.reverse.isEmpty = false := by
    simp [List.isEmpty_iff, hbne]
  unfold py_rstrip
  rw [List.reverse_append, List.dropWhile_append, hb', hbe]
  simp

/-- A single-space join of non-empty whitespace-free words has no
leading whitespace. -/
theorem lstrip_join_good {M : List PyStr}
    (hM : ∀ w ∈ M, w ≠ [] ∧ ∀ c ∈ w, ¬c.isWhitespace) :
    py_lstrip (py_join [' '] M) = py_join [' '] M := by
  cases M with
  | nil => rfl
  | cons w M =>
    have hw := hM w (List.mem_cons_self w M)
    cases hww : w with
    | nil => exact absurd hww hw.1
    | cons c w' =>
      have hc : ¬c.isWhitespace := hw.2 c (by rw [hww]; exact List.mem_cons_self c w')
      cases M with
      | nil => exact lstrip_cons_of_not_ws hc
      | cons y M' => exact lstrip_cons_of_not_ws hc

/-- A single-space join of non-empty whitespace-free words has no
trailing whitespace. -/
theorem rstrip_join_good {M : List PyStr}
    (hM : ∀ w ∈ M, w ≠ [] ∧ ∀ c ∈ w, ¬c.isWhitespace) :
    py_rstrip (py_join [' '] M) = py_join [' '] M := by
  induction M with
  | nil => rfl
  | cons w M ih =>
    have hM' : ∀ x ∈ M, x ≠ [] ∧ ∀ c ∈ x, ¬c.isWhitespace :=
      fun x hx => hM x (List.mem_cons_of_mem w hx)
    cases M with
    | nil =>
      have hw := hM w (List.mem_cons_self w [])
      exact rstrip_good_word hw.1 hw.2
    | cons y M' =>
      have hy := hM' y (List.mem_cons_self y M')
      have hTne : py_join [' '] (y :: M') ≠ [] := by
        cases M' with
        | nil => exact hy.1
        | cons z M'' =>
          show y ++ [' '] ++ py_join [' '] (z :: M'') ≠ []
          simp [hy.1]
      have hjoin : py_join [' '] (w :: y :: M') =
          w ++ ([' '] ++ py_join [' '] (y :: M')) := by
        show w ++ [' '] ++ py_join [' '] (y :: M') = _
        rw [List.append_assoc]
      have hfix : py_rstrip ([' '] ++ py_join [' '] (y :: M')) =
          [' '] ++ py_join [' '] (y :: M') :=
        rstrip_append_of_fixed (ih hM') hTne
      rw [hjoin]
      exact rstrip_append_of_fixed hfix (by simp)

/-- A single-space join of non-empty whitespace-free words is fixed by
`strip`. -/
theorem strip_join_good {M : List PyStr}
    (hM : ∀ w ∈ M, w ≠ [] ∧ ∀ c ∈ w, ¬c.isWhitespace) :
    py_strip (py_join [' '] M) = py_join [' '] M := by
  unfold py_strip
  rw [lstrip_join_good hM, rstrip_join_good hM]

/-- C6.  `transcribe_file` returns the empty string when the model
handle is absent or the transcription call raises; otherwise its output
is exactly the whitespace-words of the segments (each segment's `text`,
or `str(seg)`, trimmed, empty ones dropped) joined by single spaces —
it is fixed by `strip` (no leading or trailing whitespace) and by a
further split/join round-trip (all internal whitespace runs are already
single spaces). -/
theorem transcribe_file_normalizes (whisper_model : Option Unit)
    (model_transcribe : PyStr → ℕ → Except PyStr (List Segment))
    (audio_path : PyStr) (beam_size : ℕ) :
    (whisper_model = none →
      transcribe_file whisper_model model_transcribe audio_path beam_size = []) ∧
    (∀ e, model_transcribe audio_path beam_size = .error e →
      transcribe_file whisper_model model_transcribe audio_path beam_size = []) ∧
    (∀ segments, model_transcribe audio_path beam_size = .ok segments →
      whisper_model.isSome = true →
      transcribe_file whisper_model model_transcribe audio_path beam_size =
        py_join [' '] ((segments.map segment_str).flatMap py_split_ws) ∧
      py_strip (transcribe_file whisper_model model_transcribe audio_path beam_size) =
        transcribe_file whisper_model model_transcribe audio_path beam_size ∧
      py_join [' ']
          (py_split_ws (transcribe_file whisper_model model_transcribe audio_path beam_size)) =
        transcribe_file whisper_model model_transcribe audio_path beam_size) := by
  refine ⟨?_, ?_, ?_⟩
  · intro h; subst h; rfl
  · intro e he
    cases whisper_model with
    | none => rfl
    | some u => simp [transcribe_file, he]
  · intro segments hok hsome
    cases whisper_model with
    | none => simp at hsome
    | some u =>
      have hwords : py_split_ws (py_join [' ']
          ((segments.map (fun seg => py_strip (segment_str seg))).filter
            (fun p => !p.isEmpty))) =
          (segments.map segment_str).flatMap py_split_ws := by
        rw [words_join, flatMap_words_filter]
        have h1 : (segments.map (fun seg => py_strip (segment_str seg))).flatMap py_split_ws
            = segments.flatMap (fun seg => py_split_ws (py_strip (segment_str seg))) := by
          simp [List.flatMap_map]
        have h2 : segments.flatMap (fun seg => py_split_ws (py_strip (segment_str seg)))
            = segments.flatMap (fun seg => py_split_ws (segment_str seg)) :=
          List.flatMap_congr (fun seg _ => words_strip (segment_str seg))
        have h3 : (segments.map segment_str).flatMap py_split_ws
            = segments.flatMap (fun seg => py_split_ws (segment_str seg)) := by
          simp [List.flatMap_map]
        rw [h1, h2, ← h3]
      have hgood : ∀ w ∈ (segments.map segment_str).flatMap py_split_ws,
          w ≠ [] ∧ ∀ c ∈ w, ¬c.isWhitespace := by
        intro w hw
        rcases List.mem_flatMap.mp hw with ⟨s, _, hws⟩
        exact words_mem_good hws
      have hT : transcribe_file (some u) model_transcribe audio_path beam_size =
          py_join [' '] ((segments.map segment_str).flatMap py_split_ws) := by
        unfold transcribe_file
        rw [hok]
        show py_join [' '] (py_split_ws (py_join [' ']
            ((segments.map (fun seg => py_strip (segment_str seg))).filter
              (fun p => !p.isEmpty)))) = _
        rw [hwords]
      refine ⟨hT, ?_, ?_⟩
      · rw [hT]
        exact strip_join_good hgood
      · rw [hT, words_join_flatMap_idem]

/-- Witness for C6: a loaded model yielding two messy segments; the
transcript is their words joined by single spaces. -/
theorem transcribe_file_normalizes_witness :
    transcribe_file (some ())
        (fun _ _ => .ok [Segment.withText "  Hello ".toList,
          Segment.plain " world  again ".toList]) "a.wav".toList 5 =
      py_join [' ']
        (([Segment.withText "  Hello ".toList,
           Segment.plain " world  again ".toList].map segment_str).flatMap py_split_ws) ∧
    py_strip (transcribe_file (some ())
        (fun _ _ => .ok [Segment.withText "  Hello ".toList,
          Segment.plain " world  again ".toList]) "a.wav".toList 5) =
      transcribe_file (some ())
        (fun _ _ => .ok [Segment.withText "  Hello ".toList,
          Segment.plain " world  again ".toList]) "a.wav".toList 5 ∧
    py_join [' '] (py_split_ws (transcribe_file (some ())
        (fun _ _ => .ok [Segment.withText "  Hello ".toList,
          Segment.plain " world  again ".toList]) "a.wav".toList 5)) =
      transcribe_file (some ())
        (fun _ _ => .ok [Segment.withText "  Hello ".toList,
          Segment.plain " world  again ".toList]) "a.wav".toList 5 :=
  (transcribe_file_normalizes (some ())
      (fun _ _ => .ok [Segment.withText "  Hello ".toList,
        Segment.plain " world  again ".toList]) "a.wav".toList 5).2.2
    [Segment.withText "  Hello ".toList, Segment.plain " world  again ".toList] rfl rfl

/-- C7.  When the `/approve_plan` payload's `plan_section` is absent,
empty, or trims case-insensitively to `"n/a"`, the endpoint returns an
HTTP 200 response with status `"warning"` and a warning message, and
calls no downstream collaborator (its call trace is empty, so no LLM,
spreadsheet or email call can occur). -/
theorem approve_plan_degenerate_warning
    (process_medicinesP : PyStr → ActionResult)
    (process_appointmentP : PyStr → PyStr → Bool → ActionResult)
    (plan_section : Option PyStr) (user_email : Option PyStr)
    (send_email_field : Option Bool)
    (h : plan_section = none ∨
      (∃ p, plan_section = some p ∧ py_falsy p = true) ∨
      (∃ p, plan_section = some p ∧ py_lower (py_strip p) = "n/a".toList)) :
    approve_plan_api process_medicinesP process_appointmentP plan_section
        user_email send_email_field =
      { content := { status := some "warning".toList,
                     message := some "No valid plan section provided for approval.".toList },
        code := 200, calls := [] } := by
  have hcond : py_falsy_opt plan_section = true ∨
      py_lower (py_strip (plan_section.getD [])) = "n/a".toList := by
    rcases h with h | ⟨p, hp, hfal⟩ | ⟨p, hp, hna⟩
    · subst h; exact Or.inl rfl
    · subst hp; exact Or.inl hfal
    · subst hp; exact Or.inr hna
  unfold approve_plan_api
  rw [if_pos hcond]

/-- Witness for C7: an absent `plan_section`. -/
theorem approve_plan_degenerate_warning_witness :
    ((none : Option PyStr) = none ∨
      (∃ p, (none : Option PyStr) = some p ∧ py_falsy p = true) ∨
      (∃ p, (none : Option PyStr) = some p ∧ py_lower (py_strip p) = "n/a".toList)) ∧
    approve_plan_api (fun _ => { status := "success".toList })
        (fun _ _ _ => { status := "success".toList }) none none none =
      { content := { status := some "warning".toList,
                     message := some "No valid plan section provided for approval.".toList },
        code := 200, calls := [] } :=
  ⟨Or.inl rfl,
    approve_plan_degenerate_warning (fun _ => { status := "success".toList })
      (fun _ _ _ => { status := "success".toList }) none none none (Or.inl rfl)⟩

/-- C8.  `/process_audio` raises HTTP 400 exactly when the upload has no
(truthy) filename; with a filename present, it yields HTTP 500 whenever
the temp-file save raises, the transcript is empty/falsy, the
summarization call raises, or the summary is empty/falsy — and on all
those paths the result is an HTTP error, never a 200 JSON body. -/
theorem process_audio_api_status_codes
    (fname : Option PyStr) (section_text : PyStr)
    (saveUpload : Except PyStr PyStr)
    (ensure_wavP transcribeP : PyStr → PyStr)
    (query_gemini : PyStr → Except PyStr PyStr)
    (extract_entitiesP : PyStr → Except PyStr (List (PyStr × PyStr)))
    (json_dumps : PyStr → PyStr) :
    ((∃ d, process_audio_api fname section_text saveUpload ensure_wavP transcribeP
        query_gemini extract_entitiesP json_dumps = .httpError 400 d) ↔
      py_falsy_opt fname = true) ∧
    (py_falsy_opt fname = false →
      (∀ e, saveUpload = .error e →
        ∃ d, process_audio_api fname section_text saveUpload ensure_wavP transcribeP
          query_gemini extract_entitiesP json_dumps = .httpError 500 d) ∧
      (∀ fp, saveUpload = .ok fp →
        (py_falsy (transcribeP (ensure_wavP fp)) = true →
          ∃ d, process_audio_api fname section_text saveUpload ensure_wavP transcribeP
            query_gemini extract_entitiesP json_dumps = .httpError 500 d) ∧
        (py_falsy (transcribeP (ensure_wavP fp)) = false →
          (∀ e, query_gemini (transcribeP (ensure_wavP fp)) = .error e →
            ∃ d, process_audio_api fname section_text saveUpload ensure_wavP transcribeP
              query_gemini extract_entitiesP json_dumps = .httpError 500 d) ∧
          (∀ g, query_gemini (transcribeP (ensure_wavP fp)) = .ok g →
            py_falsy g = true →
            ∃ d, process_audio_api fname section_text saveUpload ensure_wavP transcribeP
              query_gemini extract_entitiesP json_dumps = .httpError 500 d)))) := by
  by_cases hf : py_falsy_opt fname = true
  · constructor
    · refine ⟨fun _ => hf, fun _ => ⟨"No audio file provided.".toList, ?_⟩⟩
      unfold process_audio_api
      rw [if_pos hf]
    · intro hff
      exact absurd hf (by simp [hff])
  · have hf' : py_falsy_opt fname = false := by
      cases hx : py_falsy_opt fname
      · rfl
      · exact absurd hx hf
    constructor
    · constructor
      · rintro ⟨d, hd⟩
        unfold process_audio_api at hd
        rw [if_neg hf] at hd
        cases hsave : saveUpload with
        | error e => simp only [hsave] at hd; simp at hd
        | ok fp =>
          simp only [hsave] at hd
          cases htr : py_falsy (transcribeP (ensure_wavP fp)) with
          | true => simp only [htr, if_true] at hd; simp at hd
          | false =>
            simp only [htr, Bool.false_eq_true, if_false] at hd
            cases hg : query_gemini (transcribeP (ensure_wavP fp)) with
            | error e => simp only [hg] at hd; simp at hd
            | ok g =>
              simp only [hg] at hd
              cases hgf : py_falsy g with
              | true => simp only [hgf, if_true] at hd; simp at hd
              | false =>
                simp only [hgf, Bool.false_eq_true, if_false] at hd
                by_cases hsec : py_falsy section_text = false ∧
                    py_falsy (py_strip section_text) = false
                · simp only [hsec, and_self, if_true] at hd
                  cases hre : extract_entitiesP section_text with
                  | error e => simp only [hre] at hd; simp at hd
                  | ok refL =>
                    simp only [hre] at hd
                    cases hse : extract_entitiesP (json_dumps g) with
                    | error e => simp only [hse] at hd; simp at hd
                    | ok sysL => simp only [hse] at hd; simp at hd
                · rw [if_neg ?_] at hd
                  · simp at hd
                  · simpa using hsec
      · intro hcontra
        exact absurd hcontra hf
    · intro _
      refine ⟨?_, ?_⟩
      · intro e he
        refine ⟨"Internal server error: ".toList ++ e, ?_⟩
        simp [process_audio_api, hf', he]
      · intro fp hfp
        constructor
        · intro htr
          refine ⟨"Internal server error: ".toList
            ++ "Failed to transcribe audio.".toList, ?_⟩
          simp [process_audio_api, hf', hfp, htr]
        · intro htr
          constructor
          · intro e he
            refine ⟨"Internal server error: ".toList ++ e, ?_⟩
            simp [process_audio_api, hf', hfp, htr, he]
          · intro g hg hgf
            refine ⟨"Internal server error: ".toList
              ++ "Failed to generate summary.".toList, ?_⟩
            simp [process_audio_api, hf', hfp, htr, hg, hgf]

/-- Witness for C8: a missing filename yields a 400, and a present
filename with an empty transcript yields a 500. -/
theorem process_audio_api_status_codes_witness :
    (∃ d, process_audio_api none [] (.ok []) id (fun _ => [])
        (fun _ => .ok "summary".toList) (fun _ => .ok []) id = .httpError 400 d) ∧
    py_falsy_opt (some "a.mp3".toList) = false ∧
    (∃ d, process_audio_api (some "a.mp3".toList) [] (.ok []) id (fun _ => [])
        (fun _ => .ok "summary".toList) (fun _ => .ok []) id = .httpError 500 d) :=
  ⟨(process_audio_api_status_codes none [] (.ok []) id (fun _ => [])
      (fun _ => .ok "summary".toList) (fun _ => .ok []) id).1.mpr rfl,
    rfl,
    (((process_audio_api_status_codes (some "a.mp3".toList) [] (.ok []) id (fun _ => [])
        (fun _ => .ok "summary".toList) (fun _ => .ok []) id).2 rfl).2 [] rfl).1 rfl⟩
